import Mathlib

/-!
Shallow embedding of `asteroid/filterbanks/param_sinc.py` (class `SincParamFB`),
a sinc-based parameterized filterbank.  Torch tensors of real numbers are
modelled as Lean lists of `ℝ` (or index functions `ℕ → ℝ` for per-filter
scalars); the `ValueError` branch of `make_filters` is modelled with `Except`.
-/

open Real

namespace ParamSinc

/-- Configuration stored on a `SincParamFB` instance after `__init__`
(the `kernel_size` field holds the value after the even-to-odd normalization). -/
structure SincParamFB where
  n_filters : ℕ
  kernel_size : ℕ
  stride : ℕ
  sample_rate : ℝ
  min_low_hz : ℝ
  min_band_hz : ℝ

/-- `SincParamFB.__init__`: if `kernel_size` is even it is replaced by
`kernel_size + 1` and a diagnostic is printed (the `Bool` component records
whether the diagnostic was emitted).  Construction never fails. -/
def SincParamFB.init (n_filters kernel_size stride : ℕ)
    (sample_rate min_low_hz min_band_hz : ℝ) : SincParamFB × Bool :=
  if kernel_size % 2 = 0 then
    (⟨n_filters, kernel_size + 1, stride, sample_rate, min_low_hz, min_band_hz⟩, true)
  else
    (⟨n_filters, kernel_size, stride, sample_rate, min_low_hz, min_band_hz⟩, false)

/-- `self.cutoff = self.kernel_size // 2`. -/
def SincParamFB.cutoff (fb : SincParamFB) : ℕ := fb.kernel_size / 2

/-- Entry `k` of a Hamming window of length `M`
(`np.hamming`: `0.54 - 0.46*cos(2*pi*n/(M-1))`). -/
noncomputable def hammingAt (M : ℕ) (k : ℕ) : ℝ :=
  0.54 - 0.46 * Real.cos (2 * Real.pi * k / ((M : ℝ) - 1))

/-- The buffer `window_ = np.hamming(kernel_size)[:cutoff]` (half window). -/
noncomputable def SincParamFB.window_ (fb : SincParamFB) : List ℝ :=
  List.ofFn fun k : Fin fb.cutoff => hammingAt fb.kernel_size k

/-- Entry `k` of the half time vector
`n_ = 2*pi*arange(-cutoff, 0)/sample_rate`, i.e. `2*pi*(k - cutoff)/sample_rate`. -/
noncomputable def SincParamFB.nAt (fb : SincParamFB) (k : ℕ) : ℝ :=
  2 * Real.pi * (((k : ℝ) - (fb.cutoff : ℝ)) / fb.sample_rate)

/-- The buffer `n_` (half time vector) as a list of length `cutoff`. -/
noncomputable def SincParamFB.nHalf (fb : SincParamFB) : List ℝ :=
  List.ofFn fun k : Fin fb.cutoff => fb.nAt k

/-- `torch.clamp(x, lo, hi)`: `min(max(x, lo), hi)`. -/
noncomputable def clamp (x lo hi : ℝ) : ℝ := min (max x lo) hi

/-- `SincParamFB.to_mel`: `2595 * log10(1 + hz / 700)`. -/
noncomputable def to_mel (hz : ℝ) : ℝ := 2595 * Real.logb 10 (1 + hz / 700)

/-- `SincParamFB.to_hz`: `700 * (10 ** (mel / 2595) - 1)`. -/
noncomputable def to_hz (mel : ℝ) : ℝ := 700 * ((10 : ℝ) ^ (mel / 2595) - 1)

/-- `np.linspace(a, b, num)`: `num` evenly spaced points from `a` to `b`. -/
noncomputable def linspace (a b : ℝ) (num : ℕ) : List ℝ :=
  List.ofFn fun i : Fin num => a + (b - a) * (i : ℝ) / ((num : ℝ) - 1)

/-- `_initialize_filters`: the mel-spaced points
`np.linspace(to_mel(30), to_mel(sample_rate/2 - (min_low_hz + min_band_hz)), n_filters//2 + 1)`. -/
noncomputable def SincParamFB.melPoints (fb : SincParamFB) : List ℝ :=
  linspace (to_mel 30)
    (to_mel (fb.sample_rate / 2 - (fb.min_low_hz + fb.min_band_hz)))
    (fb.n_filters / 2 + 1)

/-- `hz = to_hz(mel)` in `_initialize_filters`. -/
noncomputable def SincParamFB.hzPoints (fb : SincParamFB) : List ℝ :=
  fb.melPoints.map to_hz

/-- Initial learnable parameter `low_hz_ = hz[:-1]`. -/
noncomputable def SincParamFB.low_hz_init (fb : SincParamFB) : List ℝ :=
  fb.hzPoints.dropLast

/-- Initial learnable parameter `band_hz_ = np.diff(hz)` (first differences). -/
noncomputable def SincParamFB.band_hz_init (fb : SincParamFB) : List ℝ :=
  List.zipWith (fun a b => b - a) fb.hzPoints fb.hzPoints.tail

/-- Effective low frequency in `filters`: `low = min_low_hz + abs(low_hz_)`. -/
noncomputable def SincParamFB.effLow (fb : SincParamFB) (low_hz : ℕ → ℝ) (i : ℕ) : ℝ :=
  fb.min_low_hz + |low_hz i|

/-- Effective high frequency in `filters`:
`high = clamp(low + min_band_hz + abs(band_hz_), min_low_hz, sample_rate/2)`. -/
noncomputable def SincParamFB.effHigh (fb : SincParamFB)
    (low_hz band_hz : ℕ → ℝ) (i : ℕ) : ℝ :=
  clamp (fb.effLow low_hz i + fb.min_band_hz + |band_hz i|)
    fb.min_low_hz (fb.sample_rate / 2)

/-- Entry `k` of `bp_left` in the `cos` branch of `make_filters`:
`((sin(f_times_t_high) - sin(f_times_t_low)) / (n_/2)) * window_`. -/
noncomputable def SincParamFB.bpLeftCos (fb : SincParamFB) (low high : ℝ) (k : ℕ) : ℝ :=
  ((Real.sin (high * fb.nAt k) - Real.sin (low * fb.nAt k)) / (fb.nAt k / 2)) *
    hammingAt fb.kernel_size k

/-- Entry `k` of `bp_left` in the `sin` branch of `make_filters`:
`((cos(f_times_t_low) - cos(f_times_t_high)) / (n_/2)) * window_`. -/
noncomputable def SincParamFB.bpLeftSin (fb : SincParamFB) (low high : ℝ) (k : ℕ) : ℝ :=
  ((Real.cos (low * fb.nAt k) - Real.cos (high * fb.nAt k)) / (fb.nAt k / 2)) *
    hammingAt fb.kernel_size k

/-- One `cos`-type kernel: `cat([bp_left, bp_center, bp_right]) / (2*band)` with
`bp_center = 2*band` and `bp_right = flip(bp_left)`. -/
noncomputable def SincParamFB.bandPassCos (fb : SincParamFB) (low high : ℝ) : List ℝ :=
  (List.ofFn (fun k : Fin fb.cutoff => fb.bpLeftCos low high k)
    ++ [2 * (high - low)]
    ++ (List.ofFn (fun k : Fin fb.cutoff => fb.bpLeftCos low high k)).reverse).map
    (fun x => x / (2 * (high - low)))

/-- One `sin`-type kernel: `cat([bp_left, bp_center, bp_right]) / (2*band)` with
`bp_center = 0` and `bp_right = -flip(bp_left)`. -/
noncomputable def SincParamFB.bandPassSin (fb : SincParamFB) (low high : ℝ) : List ℝ :=
  (List.ofFn (fun k : Fin fb.cutoff => fb.bpLeftSin low high k)
    ++ [0]
    ++ ((List.ofFn (fun k : Fin fb.cutoff => fb.bpLeftSin low high k)).reverse.map
        (fun x => -x))).map
    (fun x => x / (2 * (high - low)))

/-- `make_filters(low, high, type)`: for `type = 'cos'` or `'sin'` it returns the
`(n_filters//2, 1, kernel_size)` bank of kernels; any other tag raises
`ValueError`, modelled as `Except.error`. -/
noncomputable def SincParamFB.make_filters (fb : SincParamFB)
    (low high : ℕ → ℝ) (t : String) : Except String (List (List (List ℝ))) :=
  if t = "cos" then
    Except.ok (List.ofFn fun i : Fin (fb.n_filters / 2) =>
      [fb.bandPassCos (low i) (high i)])
  else if t = "sin" then
    Except.ok (List.ofFn fun i : Fin (fb.n_filters / 2) =>
      [fb.bandPassSin (low i) (high i)])
  else
    Except.error ("Invalid filter type " ++ t)

/-- The `filters` property: compute effective frequencies from the current raw
parameters and return `cat([cos_filters, sin_filters], dim=0)`. -/
noncomputable def SincParamFB.filters (fb : SincParamFB)
    (low_hz band_hz : ℕ → ℝ) : Except String (List (List (List ℝ))) := do
  let cosF ← fb.make_filters (fb.effLow low_hz) (fb.effHigh low_hz band_hz) "cos"
  let sinF ← fb.make_filters (fb.effLow low_hz) (fb.effHigh low_hz band_hz) "sin"
  return cosF ++ sinF

/-! ### Helper lemmas about the kernel lists -/

lemma length_bandPassCos (fb : SincParamFB) (low high : ℝ) :
    (fb.bandPassCos low high).length = 2 * fb.cutoff + 1 := by
  simp [SincParamFB.bandPassCos]
  omega

lemma length_bandPassSin (fb : SincParamFB) (low high : ℝ) :
    (fb.bandPassSin low high).length = 2 * fb.cutoff + 1 := by
  simp [SincParamFB.bandPassSin]
  omega

lemma bandPassCos_getD_left (fb : SincParamFB) (low high : ℝ) (k : ℕ)
    (hk : k < fb.cutoff) :
    (fb.bandPassCos low high).getD k 0
      = fb.bpLeftCos low high k / (2 * (high - low)) := by
  unfold SincParamFB.bandPassCos
  rw [List.getD_eq_getElem?_getD, List.getElem?_map,
    List.getElem?_append_left (by simp; omega),
    List.getElem?_append_left (by simpa using hk),
    List.getElem?_ofFn]
  simp [List.ofFnNthVal, hk]

lemma bandPassCos_getD_center (fb : SincParamFB) (low high : ℝ) :
    (fb.bandPassCos low high).getD fb.cutoff 0
      = 2 * (high - low) / (2 * (high - low)) := by
  unfold SincParamFB.bandPassCos
  rw [List.getD_eq_getElem?_getD, List.getElem?_map,
    List.getElem?_append_left (by simp),
    List.getElem?_append_right (by simp)]
  simp

lemma bandPassCos_getD_right (fb : SincParamFB) (low high : ℝ) (k : ℕ)
    (hk : k < fb.cutoff) :
    (fb.bandPassCos low high).getD (fb.cutoff + 1 + k) 0
      = fb.bpLeftCos low high (fb.cutoff - 1 - k) / (2 * (high - low)) := by
  unfold SincParamFB.bandPassCos
  rw [List.getD_eq_getElem?_getD, List.getElem?_map,
    List.getElem?_append_right (by simp)]
  have hidx : fb.cutoff + 1 + k -
      (List.ofFn (fun j : Fin fb.cutoff => fb.bpLeftCos low high j) ++
        [2 * (high - low)]).length = k := by
    simp
  rw [hidx, List.getElem?_reverse (by simpa using hk), List.getElem?_ofFn]
  have hlt : (List.ofFn (fun j : Fin fb.cutoff => fb.bpLeftCos low high j)).length
      - 1 - k < fb.cutoff := by simp; omega
  simp only [List.length_ofFn] at hlt ⊢
  simp [List.ofFnNthVal, hlt]

lemma bandPassSin_getD_left (fb : SincParamFB) (low high : ℝ) (k : ℕ)
    (hk : k < fb.cutoff) :
    (fb.bandPassSin low high).getD k 0
      = fb.bpLeftSin low high k / (2 * (high - low)) := by
  unfold SincParamFB.bandPassSin
  rw [List.getD_eq_getElem?_getD, List.getElem?_map,
    List.getElem?_append_left (by simp; omega),
    List.getElem?_append_left (by simpa using hk),
    List.getElem?_ofFn]
  simp [List.ofFnNthVal, hk]

lemma bandPassSin_getD_center (fb : SincParamFB) (low high : ℝ) :
    (fb.bandPassSin low high).getD fb.cutoff 0 = 0 := by
  unfold SincParamFB.bandPassSin
  rw [List.getD_eq_getElem?_getD, List.getElem?_map,
    List.getElem?_append_left (by simp),
    List.getElem?_append_right (by simp)]
  simp

lemma bandPassSin_getD_right (fb : SincParamFB) (low high : ℝ) (k : ℕ)
    (hk : k < fb.cutoff) :
    (fb.bandPassSin low high).getD (fb.cutoff + 1 + k) 0
      = -fb.bpLeftSin low high (fb.cutoff - 1 - k) / (2 * (high - low)) := by
  unfold SincParamFB.bandPassSin
  rw [List.getD_eq_getElem?_getD, List.getElem?_map,
    List.getElem?_append_right (by simp)]
  have hidx : fb.cutoff + 1 + k -
      (List.ofFn (fun j : Fin fb.cutoff => fb.bpLeftSin low high j) ++
        [(0 : ℝ)]).length = k := by
    simp
  rw [hidx, List.getElem?_map, List.getElem?_reverse (by simpa using hk),
    List.getElem?_ofFn]
  have hlt : (List.ofFn (fun j : Fin fb.cutoff => fb.bpLeftSin low high j)).length
      - 1 - k < fb.cutoff := by simp; omega
  simp only [List.length_ofFn] at hlt ⊢
  simp [List.ofFnNthVal, hlt, neg_div]

/-- `filters` always takes the `'cos'` and `'sin'` branches and succeeds. -/
lemma filters_eq (fb : SincParamFB) (low_hz band_hz : ℕ → ℝ) :
    fb.filters low_hz band_hz = Except.ok
      (List.ofFn (fun i : Fin (fb.n_filters / 2) =>
        [fb.bandPassCos (fb.effLow low_hz i) (fb.effHigh low_hz band_hz i)]) ++
       List.ofFn (fun i : Fin (fb.n_filters / 2) =>
        [fb.bandPassSin (fb.effLow low_hz i) (fb.effHigh low_hz band_hz i)])) := by
  rfl

/-- Index `i < n_filters/2` of the generated bank is the `i`-th cos-type kernel. -/
lemma bank_getD_cos (fb : SincParamFB) (low_hz band_hz : ℕ → ℝ) (i : ℕ)
    (hi : i < fb.n_filters / 2) :
    (List.ofFn (fun j : Fin (fb.n_filters / 2) =>
        [fb.bandPassCos (fb.effLow low_hz j) (fb.effHigh low_hz band_hz j)]) ++
     List.ofFn (fun j : Fin (fb.n_filters / 2) =>
        [fb.bandPassSin (fb.effLow low_hz j) (fb.effHigh low_hz band_hz j)])).getD
        i []
      = [fb.bandPassCos (fb.effLow low_hz i) (fb.effHigh low_hz band_hz i)] := by
  rw [List.getD_eq_getElem?_getD,
    List.getElem?_append_left (by simpa using hi), List.getElem?_ofFn]
  simp [List.ofFnNthVal, hi]

/-- Index `n_filters/2 ≤ i < n_filters` of the generated bank is the
`(i - n_filters/2)`-th sin-type kernel. -/
lemma bank_getD_sin (fb : SincParamFB) (low_hz band_hz : ℕ → ℝ) (i : ℕ)
    (heven : fb.n_filters % 2 = 0) (h1 : fb.n_filters / 2 ≤ i)
    (h2 : i < fb.n_filters) :
    (List.ofFn (fun j : Fin (fb.n_filters / 2) =>
        [fb.bandPassCos (fb.effLow low_hz j) (fb.effHigh low_hz band_hz j)]) ++
     List.ofFn (fun j : Fin (fb.n_filters / 2) =>
        [fb.bandPassSin (fb.effLow low_hz j) (fb.effHigh low_hz band_hz j)])).getD
        i []
      = [fb.bandPassSin (fb.effLow low_hz (i - fb.n_filters / 2))
          (fb.effHigh low_hz band_hz (i - fb.n_filters / 2))] := by
  rw [List.getD_eq_getElem?_getD,
    List.getElem?_append_right (by simpa using h1), List.getElem?_ofFn]
  have hlt : i - (List.ofFn (fun j : Fin (fb.n_filters / 2) =>
      [fb.bandPassCos (fb.effLow low_hz j)
        (fb.effHigh low_hz band_hz j)])).length < fb.n_filters / 2 := by
    simp
    omega
  simp only [List.length_ofFn] at hlt ⊢
  simp [List.ofFnNthVal, hlt]

/-! ### Claim theorems -/

/-- C6: for every positive `kernel_size` argument `k`, construction never fails;
if `k` is even the stored `kernel_size` is `k + 1` and the diagnostic is
emitted, if `k` is odd the stored `kernel_size` is `k` and no diagnostic is
emitted; the stored `kernel_size` is always odd and
`cutoff = (kernel_size - 1) / 2`. -/
theorem C6_kernel_size_normalized (n k s : ℕ) (sr ml mb : ℝ) (hk : 0 < k) :
    (k % 2 = 0 → (SincParamFB.init n k s sr ml mb).1.kernel_size = k + 1 ∧
      (SincParamFB.init n k s sr ml mb).2 = true) ∧
    (k % 2 = 1 → (SincParamFB.init n k s sr ml mb).1.kernel_size = k ∧
      (SincParamFB.init n k s sr ml mb).2 = false) ∧
    (SincParamFB.init n k s sr ml mb).1.kernel_size % 2 = 1 ∧
    (SincParamFB.init n k s sr ml mb).1.cutoff
      = ((SincParamFB.init n k s sr ml mb).1.kernel_size - 1) / 2 := by
  by_cases h : k % 2 = 0 <;>
    simp [SincParamFB.init, SincParamFB.cutoff, h] <;> omega

/-- Witness for C6 at the even input `k = 4`. -/
theorem C6_kernel_size_normalized_witness :
    0 < 4 ∧ (SincParamFB.init 2 4 1 16000 50 50).1.kernel_size = 4 + 1 :=
  ⟨by decide, (C6_kernel_size_normalized 2 4 1 16000 50 50 (by decide)).1 rfl |>.1⟩

/-- C7: the mel conversions are exact mutual inverses on positive inputs:
`to_hz (to_mel f) = f` for every `f > 0`. -/
theorem C7_mel_roundtrip (f : ℝ) (hf : 0 < f) : to_hz (to_mel f) = f := by
  unfold to_hz to_mel
  have h1 : (0 : ℝ) < 1 + f / 700 := by linarith
  have h2 : (2595 : ℝ) * Real.logb 10 (1 + f / 700) / 2595
      = Real.logb 10 (1 + f / 700) := by ring
  rw [h2, Real.rpow_logb (by norm_num) (by norm_num) h1]
  ring

/-- Witness for C7 at `f = 700`. -/
theorem C7_mel_roundtrip_witness : (0 : ℝ) < 700 ∧ to_hz (to_mel 700) = 700 :=
  ⟨by norm_num, C7_mel_roundtrip 700 (by norm_num)⟩

/-- C2 counterexample: with `min_low_hz = 10000 > sample_rate / 2 = 8000` the
clamp pulls `high` to `8000 < min_low_hz`, so `min_low_hz ≤ high` fails. -/
theorem C2_counterexample :
    ¬ ((SincParamFB.init 2 3 1 16000 10000 50).1.min_low_hz ≤
        (SincParamFB.init 2 3 1 16000 10000 50).1.effHigh
          (fun _ => 0) (fun _ => 0) 0) := by
  norm_num [SincParamFB.init, SincParamFB.effHigh, SincParamFB.effLow, clamp,
    min_def, max_def]

/-- C2 (amended with the extra hypothesis `min_low_hz ≤ sample_rate / 2`):
for arbitrary raw parameters, `low = min_low_hz + |low_hz|` satisfies
`low ≥ min_low_hz`, and `high = clamp(low + min_band_hz + |band_hz|,
min_low_hz, sample_rate/2)` satisfies `min_low_hz ≤ high ≤ sample_rate/2`. -/
theorem C2_effective_frequency_bounds (fb : SincParamFB)
    (low_hz band_hz : ℕ → ℝ) (i : ℕ)
    (hle : fb.min_low_hz ≤ fb.sample_rate / 2) :
    fb.effLow low_hz i = fb.min_low_hz + |low_hz i| ∧
    fb.min_low_hz ≤ fb.effLow low_hz i ∧
    fb.effHigh low_hz band_hz i =
      clamp (fb.effLow low_hz i + fb.min_band_hz + |band_hz i|)
        fb.min_low_hz (fb.sample_rate / 2) ∧
    fb.min_low_hz ≤ fb.effHigh low_hz band_hz i ∧
    fb.effHigh low_hz band_hz i ≤ fb.sample_rate / 2 := by
  refine ⟨rfl, ?_, rfl, ?_, ?_⟩
  · have := abs_nonneg (low_hz i)
    unfold SincParamFB.effLow
    linarith
  · exact le_min (le_max_right _ _) hle
  · exact min_le_right _ _

/-- Witness for C2 at a concrete configuration and negative raw parameters. -/
theorem C2_effective_frequency_bounds_witness :
    (⟨2, 3, 1, 16000, 50, 50⟩ : SincParamFB).min_low_hz ≤
      (⟨2, 3, 1, 16000, 50, 50⟩ : SincParamFB).sample_rate / 2 ∧
    (⟨2, 3, 1, 16000, 50, 50⟩ : SincParamFB).effHigh
        (fun _ => -100) (fun _ => -3000) 0 ≤ 16000 / 2 :=
  ⟨by norm_num,
    (C2_effective_frequency_bounds (⟨2, 3, 1, 16000, 50, 50⟩ : SincParamFB)
      (fun _ => -100) (fun _ => -3000) 0 (by norm_num)).2.2.2.2⟩

/-- C9: with `min_band_hz > 0`, the effective band `high - low` is strictly
positive iff `low = min_low_hz + |low_hz| < sample_rate / 2`; when
`low ≥ sample_rate / 2` the band is `≤ 0` (exactly `0` when
`low = sample_rate / 2`); and generation is not guarded against this case:
`filters` still returns a bank. -/
theorem C9_band_sign_unguarded (fb : SincParamFB) (low_hz band_hz : ℕ → ℝ)
    (i : ℕ) (hmb : 0 < fb.min_band_hz) :
    (0 < fb.effHigh low_hz band_hz i - fb.effLow low_hz i ↔
      fb.effLow low_hz i < fb.sample_rate / 2) ∧
    (fb.sample_rate / 2 ≤ fb.effLow low_hz i →
      fb.effHigh low_hz band_hz i - fb.effLow low_hz i ≤ 0) ∧
    (fb.effLow low_hz i = fb.sample_rate / 2 →
      fb.effHigh low_hz band_hz i - fb.effLow low_hz i = 0) ∧
    (∃ B, fb.filters low_hz band_hz = Except.ok B) := by
  have hL : fb.min_low_hz ≤ fb.effLow low_hz i :=
    le_add_of_nonneg_right (abs_nonneg _)
  have hpre : fb.effLow low_hz i <
      fb.effLow low_hz i + fb.min_band_hz + |band_hz i| := by
    have := abs_nonneg (band_hz i)
    linarith
  have hH : fb.effHigh low_hz band_hz i =
      min (fb.effLow low_hz i + fb.min_band_hz + |band_hz i|)
        (fb.sample_rate / 2) := by
    unfold SincParamFB.effHigh clamp
    rw [max_eq_left (hL.trans hpre.le)]
  refine ⟨⟨fun h => ?_, fun h => ?_⟩, fun h => ?_, fun h => ?_, ⟨_, filters_eq fb low_hz band_hz⟩⟩
  · by_contra hc
    push_neg at hc
    have := min_le_right (fb.effLow low_hz i + fb.min_band_hz + |band_hz i|)
      (fb.sample_rate / 2)
    rw [hH] at h
    linarith
  · rw [hH]
    rcases le_or_lt (fb.effLow low_hz i + fb.min_band_hz + |band_hz i|)
        (fb.sample_rate / 2) with h1 | h1
    · rw [min_eq_left h1]
      linarith
    · rw [min_eq_right h1.le]
      linarith
  · have := min_le_right (fb.effLow low_hz i + fb.min_band_hz + |band_hz i|)
      (fb.sample_rate / 2)
    rw [hH]
    linarith
  · rw [hH, min_eq_right (by linarith [h ▸ hpre])]
    linarith

/-- Witness for C9 at a concrete configuration. -/
theorem C9_band_sign_unguarded_witness :
    (0 : ℝ) < 50 ∧
    (0 < (⟨2, 3, 1, 16000, 50, 50⟩ : SincParamFB).effHigh
          (fun _ => 0) (fun _ => 0) 0 -
        (⟨2, 3, 1, 16000, 50, 50⟩ : SincParamFB).effLow (fun _ => 0) 0 ↔
      (⟨2, 3, 1, 16000, 50, 50⟩ : SincParamFB).effLow (fun _ => 0) 0 <
        16000 / 2) :=
  ⟨by norm_num,
    (C9_band_sign_unguarded (⟨2, 3, 1, 16000, 50, 50⟩ : SincParamFB)
      (fun _ => 0) (fun _ => 0) 0 (by norm_num)).1⟩

/-- C8: `make_filters` raises an invalid-argument error for every tag other
than `'cos'` and `'sin'`, and this branch is unreachable from the public
`filters` entry point, which only invokes the tags `'cos'` and `'sin'` and
always succeeds. -/
theorem C8_invalid_type_error (fb : SincParamFB)
    (low high low_hz band_hz : ℕ → ℝ) (t : String)
    (h1 : t ≠ "cos") (h2 : t ≠ "sin") :
    fb.make_filters low high t = Except.error ("Invalid filter type " ++ t) ∧
    ∃ B, fb.filters low_hz band_hz = Except.ok B := by
  refine ⟨?_, ⟨_, filters_eq fb low_hz band_hz⟩⟩
  unfold SincParamFB.make_filters
  rw [if_neg h1, if_neg h2]

/-- Witness for C8 at the tag `"tan"`. -/
theorem C8_invalid_type_error_witness :
    (⟨4, 5, 1, 16000, 50, 50⟩ : SincParamFB).make_filters
        (fun _ => 0) (fun _ => 0) "tan"
      = Except.error ("Invalid filter type " ++ "tan") ∧
    ∃ B, (⟨4, 5, 1, 16000, 50, 50⟩ : SincParamFB).filters
        (fun _ => 0) (fun _ => 0) = Except.ok B :=
  C8_invalid_type_error (⟨4, 5, 1, 16000, 50, 50⟩ : SincParamFB)
    (fun _ => 0) (fun _ => 0) (fun _ => 0) (fun _ => 0) "tan"
    (by decide) (by decide)

/-- C4: for even positive `n_filters` and odd stored `kernel_size`, generation
returns a bank of shape `(n_filters, 1, kernel_size)`: `n_filters` entries,
each a single-channel list holding one kernel of length `kernel_size`, with the
cos-type kernels at indices `0 .. n_filters/2 - 1` followed by the sin-type
kernels at indices `n_filters/2 .. n_filters - 1`. -/
theorem C4_bank_shape_and_order (fb : SincParamFB) (low_hz band_hz : ℕ → ℝ)
    (heven : fb.n_filters % 2 = 0) (hpos : 0 < fb.n_filters)
    (hodd : fb.kernel_size % 2 = 1) :
    ∃ B, fb.filters low_hz band_hz = Except.ok B ∧
      B.length = fb.n_filters ∧
      (∀ l ∈ B, l.length = 1 ∧ ∀ kl ∈ l, kl.length = fb.kernel_size) ∧
      (∀ i < fb.n_filters / 2, B.getD i []
        = [fb.bandPassCos (fb.effLow low_hz i) (fb.effHigh low_hz band_hz i)]) ∧
      (∀ i, fb.n_filters / 2 ≤ i → i < fb.n_filters → B.getD i []
        = [fb.bandPassSin (fb.effLow low_hz (i - fb.n_filters / 2))
            (fb.effHigh low_hz band_hz (i - fb.n_filters / 2))]) := by
  have hks : 2 * fb.cutoff + 1 = fb.kernel_size := by
    unfold SincParamFB.cutoff
    omega
  refine ⟨_, filters_eq fb low_hz band_hz, ?_, ?_, ?_, ?_⟩
  · simp
    omega
  · intro l hl
    rcases List.mem_append.1 hl with h | h
    · obtain ⟨j, rfl⟩ := Set.mem_range.1 ((List.mem_ofFn _ _).1 h)
      refine ⟨rfl, ?_⟩
      intro kl hkl
      rcases List.mem_singleton.1 hkl with rfl
      rw [length_bandPassCos, hks]
    · obtain ⟨j, rfl⟩ := Set.mem_range.1 ((List.mem_ofFn _ _).1 h)
      refine ⟨rfl, ?_⟩
      intro kl hkl
      rcases List.mem_singleton.1 hkl with rfl
      rw [length_bandPassSin, hks]
  · intro i hi
    exact bank_getD_cos fb low_hz band_hz i hi
  · intro i h1 h2
    exact bank_getD_sin fb low_hz band_hz i heven h1 h2

/-- Witness for C4 at a concrete configuration. -/
theorem C4_bank_shape_and_order_witness :
    ∃ B, (⟨4, 5, 1, 16000, 50, 50⟩ : SincParamFB).filters
        (fun _ => 0) (fun _ => 0) = Except.ok B ∧
      B.length = (⟨4, 5, 1, 16000, 50, 50⟩ : SincParamFB).n_filters ∧
      (∀ l ∈ B, l.length = 1 ∧ ∀ kl ∈ l,
        kl.length = (⟨4, 5, 1, 16000, 50, 50⟩ : SincParamFB).kernel_size) ∧
      (∀ i < (⟨4, 5, 1, 16000, 50, 50⟩ : SincParamFB).n_filters / 2, B.getD i []
        = [(⟨4, 5, 1, 16000, 50, 50⟩ : SincParamFB).bandPassCos
            ((⟨4, 5, 1, 16000, 50, 50⟩ : SincParamFB).effLow (fun _ => 0) i)
            ((⟨4, 5, 1, 16000, 50, 50⟩ : SincParamFB).effHigh
              (fun _ => 0) (fun _ => 0) i)]) ∧
      (∀ i, (⟨4, 5, 1, 16000, 50, 50⟩ : SincParamFB).n_filters / 2 ≤ i →
        i < (⟨4, 5, 1, 16000, 50, 50⟩ : SincParamFB).n_filters → B.getD i []
        = [(⟨4, 5, 1, 16000, 50, 50⟩ : SincParamFB).bandPassSin
            ((⟨4, 5, 1, 16000, 50, 50⟩ : SincParamFB).effLow (fun _ => 0)
              (i - (⟨4, 5, 1, 16000, 50, 50⟩ : SincParamFB).n_filters / 2))
            ((⟨4, 5, 1, 16000, 50, 50⟩ : SincParamFB).effHigh
              (fun _ => 0) (fun _ => 0)
              (i - (⟨4, 5, 1, 16000, 50, 50⟩ : SincParamFB).n_filters / 2))]) :=
  C4_bank_shape_and_order (⟨4, 5, 1, 16000, 50, 50⟩ : SincParamFB)
    (fun _ => 0) (fun _ => 0) (by decide) (by decide) (by decide)

/-- C3: in every generated bank (even positive `n_filters`, odd
`kernel_size`, nonzero bands), each cos-type kernel (first `n_filters/2`) is
mirror-symmetric about the center index and each sin-type kernel (last
`n_filters/2`) is antisymmetric with center sample `0`. -/
theorem C3_symmetry (fb : SincParamFB) (low_hz band_hz : ℕ → ℝ)
    (heven : fb.n_filters % 2 = 0) (hpos : 0 < fb.n_filters)
    (hodd : fb.kernel_size % 2 = 1)
    (hband : ∀ i, fb.effHigh low_hz band_hz i - fb.effLow low_hz i ≠ 0) :
    ∃ B, fb.filters low_hz band_hz = Except.ok B ∧
      (∀ i < fb.n_filters / 2, ∀ j < fb.cutoff,
        ((B.getD i []).getD 0 []).getD (fb.cutoff - 1 - j) 0
          = ((B.getD i []).getD 0 []).getD (fb.cutoff + 1 + j) 0) ∧
      (∀ i, fb.n_filters / 2 ≤ i → i < fb.n_filters →
        (∀ j < fb.cutoff,
          ((B.getD i []).getD 0 []).getD (fb.cutoff + 1 + j) 0
            = -((B.getD i []).getD 0 []).getD (fb.cutoff - 1 - j) 0) ∧
        ((B.getD i []).getD 0 []).getD fb.cutoff 0 = 0) := by
  refine ⟨_, filters_eq fb low_hz band_hz, ?_, ?_⟩
  · intro i hi j hj
    rw [bank_getD_cos fb low_hz band_hz i hi]
    simp only [List.getD_cons_zero]
    rw [bandPassCos_getD_left _ _ _ _ (by omega),
      bandPassCos_getD_right _ _ _ _ hj]
  · intro i h1 h2
    rw [bank_getD_sin fb low_hz band_hz i heven h1 h2]
    simp only [List.getD_cons_zero]
    refine ⟨fun j hj => ?_, bandPassSin_getD_center _ _ _⟩
    rw [bandPassSin_getD_right _ _ _ _ hj,
      bandPassSin_getD_left _ _ _ (fb.cutoff - 1 - j) (by omega), neg_div]

/-- Witness for C3 at a concrete configuration. -/
theorem C3_symmetry_witness :
    ∃ B, (⟨4, 5, 1, 16000, 50, 50⟩ : SincParamFB).filters
        (fun _ => 0) (fun _ => 0) = Except.ok B ∧
      (∀ i < (⟨4, 5, 1, 16000, 50, 50⟩ : SincParamFB).n_filters / 2,
        ∀ j < (⟨4, 5, 1, 16000, 50, 50⟩ : SincParamFB).cutoff,
        ((B.getD i []).getD 0 []).getD
            ((⟨4, 5, 1, 16000, 50, 50⟩ : SincParamFB).cutoff - 1 - j) 0
          = ((B.getD i []).getD 0 []).getD
            ((⟨4, 5, 1, 16000, 50, 50⟩ : SincParamFB).cutoff + 1 + j) 0) ∧
      (∀ i, (⟨4, 5, 1, 16000, 50, 50⟩ : SincParamFB).n_filters / 2 ≤ i →
        i < (⟨4, 5, 1, 16000, 50, 50⟩ : SincParamFB).n_filters →
        (∀ j < (⟨4, 5, 1, 16000, 50, 50⟩ : SincParamFB).cutoff,
          ((B.getD i []).getD 0 []).getD
              ((⟨4, 5, 1, 16000, 50, 50⟩ : SincParamFB).cutoff + 1 + j) 0
            = -((B.getD i []).getD 0 []).getD
              ((⟨4, 5, 1, 16000, 50, 50⟩ : SincParamFB).cutoff - 1 - j) 0) ∧
        ((B.getD i []).getD 0 []).getD
            (⟨4, 5, 1, 16000, 50, 50⟩ : SincParamFB).cutoff 0 = 0) :=
  C3_symmetry (⟨4, 5, 1, 16000, 50, 50⟩ : SincParamFB) (fun _ => 0) (fun _ => 0)
    (by decide) (by decide) (by decide)
    (fun i => by
      norm_num [SincParamFB.effHigh, SincParamFB.effLow, clamp, min_def,
        max_def])

/-- With `cutoff = 0` and a nonzero band, the cos-type kernel is exactly `[1]`. -/
lemma bandPassCos_cutzero (fb : SincParamFB) (low high : ℝ)
    (hc : fb.cutoff = 0) (hb : high - low ≠ 0) :
    fb.bandPassCos low high = [1] := by
  unfold SincParamFB.bandPassCos
  have h1 : List.ofFn (fun k : Fin fb.cutoff => fb.bpLeftCos low high k) = [] :=
    List.length_eq_zero.1 (by simp [hc])
  rw [h1]
  simp [div_self (mul_ne_zero two_ne_zero hb)]

/-- With `cutoff = 0`, the sin-type kernel is exactly `[0]`. -/
lemma bandPassSin_cutzero (fb : SincParamFB) (low high : ℝ)
    (hc : fb.cutoff = 0) :
    fb.bandPassSin low high = [0] := by
  unfold SincParamFB.bandPassSin
  have h1 : List.ofFn (fun k : Fin fb.cutoff => fb.bpLeftSin low high k) = [] :=
    List.length_eq_zero.1 (by simp [hc])
  rw [h1]
  simp

/-- C10: in the degenerate configuration `kernel_size = 1` (`cutoff = 0`), the
half-window and half-time buffers are empty and, for nonzero bands, generation
returns `n_filters` single-sample kernels: each cos-type kernel is `[1]`
(`2*band` normalized by `2*band`) and each sin-type kernel is `[0]`. -/
theorem C10_degenerate_kernel_size_one (fb : SincParamFB)
    (low_hz band_hz : ℕ → ℝ) (hks : fb.kernel_size = 1)
    (heven : fb.n_filters % 2 = 0) (hpos : 0 < fb.n_filters)
    (hband : ∀ i, fb.effHigh low_hz band_hz i - fb.effLow low_hz i ≠ 0) :
    fb.cutoff = 0 ∧ fb.window_ = [] ∧ fb.nHalf = [] ∧
    ∃ B, fb.filters low_hz band_hz = Except.ok B ∧
      B.length = fb.n_filters ∧
      (∀ i < fb.n_filters / 2, B.getD i [] = [[1]]) ∧
      (∀ i, fb.n_filters / 2 ≤ i → i < fb.n_filters → B.getD i [] = [[0]]) := by
  have hc : fb.cutoff = 0 := by
    unfold SincParamFB.cutoff
    omega
  refine ⟨hc, ?_, ?_, _, filters_eq fb low_hz band_hz, ?_, ?_, ?_⟩
  · exact List.length_eq_zero.1 (by simp [SincParamFB.window_, hc])
  · exact List.length_eq_zero.1 (by simp [SincParamFB.nHalf, hc])
  · simp
    omega
  · intro i hi
    rw [bank_getD_cos fb low_hz band_hz i hi,
      bandPassCos_cutzero fb _ _ hc (hband i)]
  · intro i h1 h2
    rw [bank_getD_sin fb low_hz band_hz i heven h1 h2,
      bandPassSin_cutzero fb _ _ hc]

/-- Witness for C10 at `kernel_size = 1`, `n_filters = 2`. -/
theorem C10_degenerate_kernel_size_one_witness :
    (⟨2, 1, 1, 16000, 50, 50⟩ : SincParamFB).cutoff = 0 ∧
    (⟨2, 1, 1, 16000, 50, 50⟩ : SincParamFB).window_ = [] ∧
    (⟨2, 1, 1, 16000, 50, 50⟩ : SincParamFB).nHalf = [] ∧
    ∃ B, (⟨2, 1, 1, 16000, 50, 50⟩ : SincParamFB).filters
        (fun _ => 0) (fun _ => 0) = Except.ok B ∧
      B.length = (⟨2, 1, 1, 16000, 50, 50⟩ : SincParamFB).n_filters ∧
      (∀ i < (⟨2, 1, 1, 16000, 50, 50⟩ : SincParamFB).n_filters / 2,
        B.getD i [] = [[1]]) ∧
      (∀ i, (⟨2, 1, 1, 16000, 50, 50⟩ : SincParamFB).n_filters / 2 ≤ i →
        i < (⟨2, 1, 1, 16000, 50, 50⟩ : SincParamFB).n_filters →
        B.getD i [] = [[0]]) :=
  C10_degenerate_kernel_size_one (⟨2, 1, 1, 16000, 50, 50⟩ : SincParamFB)
    (fun _ => 0) (fun _ => 0) rfl (by decide) (by decide)
    (fun i => by
      norm_num [SincParamFB.effHigh, SincParamFB.effLow, clamp, min_def,
        max_def])

/-- The `j`-th element of `hz` in `_initialize_filters` is `to_hz` of the
`j`-th of the `n_filters/2 + 1` mel-spaced points. -/
lemma hzPoints_getElem (fb : SincParamFB) (j : ℕ)
    (hj : j < fb.n_filters / 2 + 1) :
    fb.hzPoints[j]? = some (to_hz (to_mel 30 +
      (to_mel (fb.sample_rate / 2 - (fb.min_low_hz + fb.min_band_hz)) -
        to_mel 30) * (j : ℝ) / ((fb.n_filters / 2 : ℕ) : ℝ))) := by
  unfold SincParamFB.hzPoints SincParamFB.melPoints linspace
  rw [List.getElem?_map, List.getElem?_ofFn]
  simp only [List.ofFnNthVal, hj, dif_pos, Option.map_some']
  congr 2
  push_cast
  ring

/-- C5: at construction, `low_hz_` holds the first `n_filters/2` of the
`n_filters/2 + 1` mel-spaced points (the last point is dropped), converted
back to Hz, and `band_hz_` holds their first differences. -/
theorem C5_mel_initialization (fb : SincParamFB) (i : ℕ)
    (heven : fb.n_filters % 2 = 0) (hpos : 0 < fb.n_filters)
    (hi : i < fb.n_filters / 2) :
    fb.low_hz_init.length = fb.n_filters / 2 ∧
    fb.band_hz_init.length = fb.n_filters / 2 ∧
    fb.low_hz_init.getD i 0
      = to_hz (to_mel 30 +
          (to_mel (fb.sample_rate / 2 - (fb.min_low_hz + fb.min_band_hz)) -
            to_mel 30) * (i : ℝ) / ((fb.n_filters / 2 : ℕ) : ℝ)) ∧
    fb.band_hz_init.getD i 0
      = to_hz (to_mel 30 +
          (to_mel (fb.sample_rate / 2 - (fb.min_low_hz + fb.min_band_hz)) -
            to_mel 30) * ((i : ℝ) + 1) / ((fb.n_filters / 2 : ℕ) : ℝ))
        - to_hz (to_mel 30 +
          (to_mel (fb.sample_rate / 2 - (fb.min_low_hz + fb.min_band_hz)) -
            to_mel 30) * (i : ℝ) / ((fb.n_filters / 2 : ℕ) : ℝ)) := by
  have hlen : fb.hzPoints.length = fb.n_filters / 2 + 1 := by
    simp [SincParamFB.hzPoints, SincParamFB.melPoints, linspace]
  refine ⟨?_, ?_, ?_, ?_⟩
  · simp [SincParamFB.low_hz_init, hlen]
  · simp [SincParamFB.band_hz_init, hlen]
  · rw [List.getD_eq_getElem?_getD, SincParamFB.low_hz_init,
      List.getElem?_dropLast, if_pos (by omega : i < fb.hzPoints.length - 1),
      hzPoints_getElem fb i (by omega)]
    rfl
  · rw [List.getD_eq_getElem?_getD, SincParamFB.band_hz_init,
      List.getElem?_zipWith', List.getElem?_tail,
      hzPoints_getElem fb i (by omega), hzPoints_getElem fb (i + 1) (by omega)]
    push_cast
    rfl

/-- Witness for C5 at a concrete configuration, `i = 0`. -/
theorem C5_mel_initialization_witness :
    (⟨4, 5, 1, 16000, 50, 50⟩ : SincParamFB).low_hz_init.length = 4 / 2 ∧
    (⟨4, 5, 1, 16000, 50, 50⟩ : SincParamFB).band_hz_init.length = 4 / 2 :=
  ⟨(C5_mel_initialization (⟨4, 5, 1, 16000, 50, 50⟩ : SincParamFB) 0
      (by decide) (by decide) (by decide)).1,
   (C5_mel_initialization (⟨4, 5, 1, 16000, 50, 50⟩ : SincParamFB) 0
      (by decide) (by decide) (by decide)).2.1⟩

/-- C1: for odd `kernel_size ≥ 3` and nonzero band, the `k`-th sample of the
left half (`k < cutoff`) of the cos-type kernel is
`(sin(high*n_k) - sin(low*n_k)) / (n_k/2) * w_k / (2*band)` and of the
sin-type kernel is `(cos(low*n_k) - cos(high*n_k)) / (n_k/2) * w_k / (2*band)`,
with `n_k = 2*pi*(k - cutoff)/sample_rate` and Hamming sample
`w_k = 0.54 - 0.46*cos(2*pi*k/(kernel_size-1))`; the center sample is
`2*band/(2*band)` for cos-type and `0` for sin-type. -/
theorem C1_half_kernel_formula (fb : SincParamFB) (low high : ℝ) (k : ℕ)
    (hodd : fb.kernel_size % 2 = 1) (h3 : 3 ≤ fb.kernel_size)
    (hband : high - low ≠ 0) (hk : k < fb.cutoff) :
    (fb.bandPassCos low high).getD k 0
      = (Real.sin (high * (2 * Real.pi *
            (((k : ℝ) - (fb.cutoff : ℝ)) / fb.sample_rate))) -
          Real.sin (low * (2 * Real.pi *
            (((k : ℝ) - (fb.cutoff : ℝ)) / fb.sample_rate)))) /
          (2 * Real.pi * (((k : ℝ) - (fb.cutoff : ℝ)) / fb.sample_rate) / 2) *
          (0.54 - 0.46 * Real.cos (2 * Real.pi * (k : ℝ) /
            ((fb.kernel_size : ℝ) - 1))) / (2 * (high - low)) ∧
    (fb.bandPassSin low high).getD k 0
      = (Real.cos (low * (2 * Real.pi *
            (((k : ℝ) - (fb.cutoff : ℝ)) / fb.sample_rate))) -
          Real.cos (high * (2 * Real.pi *
            (((k : ℝ) - (fb.cutoff : ℝ)) / fb.sample_rate)))) /
          (2 * Real.pi * (((k : ℝ) - (fb.cutoff : ℝ)) / fb.sample_rate) / 2) *
          (0.54 - 0.46 * Real.cos (2 * Real.pi * (k : ℝ) /
            ((fb.kernel_size : ℝ) - 1))) / (2 * (high - low)) ∧
    (fb.bandPassCos low high).getD fb.cutoff 0
      = 2 * (high - low) / (2 * (high - low)) ∧
    (fb.bandPassSin low high).getD fb.cutoff 0 = 0 := by
  refine ⟨?_, ?_, bandPassCos_getD_center _ _ _, bandPassSin_getD_center _ _ _⟩
  · rw [bandPassCos_getD_left _ _ _ _ hk]
    rfl
  · rw [bandPassSin_getD_left _ _ _ _ hk]
    rfl

/-- Witness for C1 at a concrete configuration, `k = 0`. -/
theorem C1_half_kernel_formula_witness :
    ((⟨4, 5, 1, 16000, 50, 50⟩ : SincParamFB).bandPassCos 100 200).getD
        (⟨4, 5, 1, 16000, 50, 50⟩ : SincParamFB).cutoff 0
      = 2 * (200 - 100) / (2 * (200 - 100)) ∧
    ((⟨4, 5, 1, 16000, 50, 50⟩ : SincParamFB).bandPassSin 100 200).getD
        (⟨4, 5, 1, 16000, 50, 50⟩ : SincParamFB).cutoff 0 = 0 :=
  ⟨(C1_half_kernel_formula (⟨4, 5, 1, 16000, 50, 50⟩ : SincParamFB) 100 200 0
      (by decide) (by decide) (by norm_num) (by decide)).2.2.1,
   (C1_half_kernel_formula (⟨4, 5, 1, 16000, 50, 50⟩ : SincParamFB) 100 200 0
      (by decide) (by decide) (by norm_num) (by decide)).2.2.2⟩

end ParamSinc
